import Mathlib

/-
Verification of the CGPath module (core-graphics/src/path.rs): a reference-
counted handle over a foreign path object plus a callback iteration bridge.

Embedding conventions:
* CGFloat coordinates are opaque payloads never computed on by this module;
  they are modelled as `Int`.
* A raw pointer to a foreign point buffer is modelled as
  `Option (List CGPoint)`: `none` is a null or dangling pointer (reading it
  is undefined behaviour, rendered as `none` results), `some buf` is a
  readable buffer with contents `buf`.
* Rust panics are modelled with `Except`: a closure that may panic is a
  function into `Except ε σ`, and `Except.error` is an unwind in flight.
* Foreign entry points (CFRetain, CFRelease, CGPathCreateWithRect,
  CGPathApply, CGPathGetTypeID) are not part of the repository; each is
  modelled from the spec and marked so in its doc comment.
-/

namespace CoreGraphics

structure CGPoint where
  x : Int
  y : Int
deriving DecidableEq

structure CGSize where
  width : Int
  height : Int
deriving DecidableEq

structure CGRect where
  origin : CGPoint
  size : CGSize
deriving DecidableEq

structure CGAffineTransform where
  a : Int
  b : Int
  c : Int
  d : Int
  tx : Int
  ty : Int
deriving DecidableEq

/-- The command tag enumeration from the source (`#[repr(i32)] enum
CGPathElementType`), a closed type with five constructors. -/
inductive CGPathElementType where
  | MoveToPoint
  | AddLineToPoint
  | AddQuadCurveToPoint
  | AddCurveToPoint
  | CloseSubpath
deriving DecidableEq

/-- The `repr(i32)` discriminant of each constructor, as fixed by the
`= 0, = 1, = 2, = 3, = 4` annotations in the source. -/
def CGPathElementType.tagValue : CGPathElementType → Int
  | .MoveToPoint => 0
  | .AddLineToPoint => 1
  | .AddQuadCurveToPoint => 2
  | .AddCurveToPoint => 3
  | .CloseSubpath => 4

/-- The point count mandated for each tag. This is the table stated by the
spec (0 for Close, 1 for Move/Line, 2 for QuadCurve, 3 for Curve); the code
side is `CGPathElement.points`, compared against this table below. -/
def CGPathElementType.pointCount : CGPathElementType → Nat
  | .MoveToPoint => 1
  | .AddLineToPoint => 1
  | .AddQuadCurveToPoint => 2
  | .AddCurveToPoint => 3
  | .CloseSubpath => 0

/-- One foreign command record (`#[repr(C)] struct CGPathElement`): a tag and
a raw pointer to a foreign-owned point buffer (`none` = null/dangling). -/
structure CGPathElement where
  element_type : CGPathElementType
  points_ptr : Option (List CGPoint)
deriving DecidableEq

/-- `slice::from_raw_parts(ptr, len)`: reading `len` points from the buffer.
Reading through a null/dangling pointer, or past the readable buffer, is
undefined behaviour, rendered `none`. -/
def slice_from_raw_parts (buf : Option (List CGPoint)) (len : Nat) :
    Option (List CGPoint) :=
  match buf with
  | none => none
  | some data => if len ≤ data.length then some (data.take len) else none

/-- `CGPathElement::points` from the source: dispatch on the tag, returning
the empty slice for CloseSubpath (no read through the pointer) and reading
1/1/2/3 points for Move/Line/QuadCurve/Curve. -/
def CGPathElement.points (e : CGPathElement) : Option (List CGPoint) :=
  match e.element_type with
  | .CloseSubpath => some []
  | .MoveToPoint => slice_from_raw_parts e.points_ptr 1
  | .AddLineToPoint => slice_from_raw_parts e.points_ptr 1
  | .AddQuadCurveToPoint => slice_from_raw_parts e.points_ptr 2
  | .AddCurveToPoint => slice_from_raw_parts e.points_ptr 3

/-- Modelled from the spec: the foreign retain entry point
(increment-and-return-same-pointer). State is the object's reference
count. -/
def CFRetain (count : Nat) : Nat := count + 1

/-- Modelled from the spec: the foreign release entry point
(decrement-and-possibly-free). Returns the new count and whether this
release freed the object (the count reached zero). Releasing an already
dead object is a foreign-contract violation, rendered `none`. -/
def CFRelease : Nat → Option (Nat × Bool)
  | 0 => none
  | n + 1 => some (n, n == 0)

/-- `fn clone = |p| CFRetain(p as *const _) as *mut _` from the
`foreign_type!` block: cloning a handle performs exactly one foreign
retain. -/
def cloneHandle (count : Nat) : Nat := CFRetain count

/-- `fn drop = |p| CFRelease(p as *mut _)` from the `foreign_type!` block:
dropping a handle performs exactly one foreign release. -/
def dropHandle (count : Nat) : Option (Nat × Bool) := CFRelease count

/-- Reference count after the original handle (owning the creation
reference, count 1) has been cloned `n` times. -/
def cloneN : Nat → Nat
  | 0 => 1
  | n + 1 => cloneHandle (cloneN n)

/-- Drop a list of handles in the given order, each drop performing one
foreign release; returns the final count and how many times the object was
freed, or `none` on a contract violation (release of a dead object). The
handle identities `α` are irrelevant to the foreign effect: every drop is
the same release. -/
def runDrops {α : Type} (count frees : Nat) : List α → Option (Nat × Nat)
  | [] => some (count, frees)
  | _ :: rest =>
    match dropHandle count with
    | none => none
    | some (c, freed) => runDrops c (frees + if freed then 1 else 0) rest

abbrev CFTypeID := Nat

/-- One foreign path object: the arguments the allocator received (the
rectangle, and the transform pointer where `none` models null), its command
stream, and its reference count. -/
structure PathObject where
  rect : CGRect
  transform : Option CGAffineTransform
  commands : List CGPathElement
  refcount : Nat
deriving DecidableEq

/-- The foreign library's state: a heap of path objects keyed by pointer, a
fresh-pointer supply, and the process-wide type identifier of the path
class. -/
structure World where
  heap : List (Nat × PathObject)
  nextPtr : Nat
  pathTypeID : CFTypeID

def heapGet (w : World) (p : Nat) : Option PathObject :=
  w.heap.lookup p

/-- Modelled from the spec: the command stream of a rectangle path — one
MoveToPoint, three AddLineToPoint for the remaining corners, one
CloseSubpath. The point values are computed by the foreign library and are
opaque to this module; the model stores the untransformed corners. -/
def rectStream (rect : CGRect) : List CGPathElement :=
  [⟨.MoveToPoint, some [rect.origin]⟩,
   ⟨.AddLineToPoint,
     some [⟨rect.origin.x + rect.size.width, rect.origin.y⟩]⟩,
   ⟨.AddLineToPoint,
     some [⟨rect.origin.x + rect.size.width,
            rect.origin.y + rect.size.height⟩]⟩,
   ⟨.AddLineToPoint,
     some [⟨rect.origin.x, rect.origin.y + rect.size.height⟩]⟩,
   ⟨.CloseSubpath, some []⟩]

/-- Modelled from the spec: the foreign allocator entry point. It accepts a
rectangle and an optional transform pointer (`none` models null, meaning
identity), has no failure path, and returns a fresh pointer to a new path
object carrying exactly one reference. -/
def CGPathCreateWithRect (w : World) (rect : CGRect)
    (transform : Option CGAffineTransform) : Nat × World :=
  (w.nextPtr,
    { heap := (w.nextPtr,
        { rect := rect, transform := transform,
          commands := rectStream rect, refcount := 1 }) :: w.heap,
      nextPtr := w.nextPtr + 1,
      pathTypeID := w.pathTypeID })

/-- Modelled from the spec: the foreign type-identity entry point — a pure
query returning the process-wide stable identifier of the path class. -/
def CGPathGetTypeID (w : World) : CFTypeID × World :=
  (w.pathTypeID, w)

/-- The handle: a pointer to a foreign path object (`struct CGPath`
generated by `foreign_type!`). -/
structure CGPath where
  ptr : Nat
deriving DecidableEq

/-- `ForeignType::from_ptr`: wrap a raw pointer, taking ownership of the
reference it carries. -/
def CGPath.from_ptr (p : Nat) : CGPath := ⟨p⟩

/-- `CGPath::from_rect` from the source: compute the transform argument
(`ptr::null()` when `None`, the borrow of the supplied transform
otherwise), call the foreign allocator, and wrap the returned pointer.
The function is total: there is no error path. -/
def CGPath.from_rect (w : World) (rect : CGRect)
    (transform : Option CGAffineTransform) : CGPath × World :=
  let transformArg : Option CGAffineTransform :=
    match transform with
    | none => none
    | some t => some t
  let r := CGPathCreateWithRect w rect transformArg
  (CGPath.from_ptr r.1, r.2)

/-- `CGPath::type_id` from the source: call the foreign type-identity entry
point. -/
def CGPath.type_id (w : World) : CFTypeID × World :=
  CGPathGetTypeID w

/-- Modelled from the spec: the core of the foreign apply entry point —
invoke the trampoline once per command of the stream, in stream order,
synchronously. An unwind escaping the trampoline (`Except.error`) aborts
the enumeration and propagates through the foreign frames (the foreign
library installs no handler). -/
def CGPathApplyStream {σ ε : Type} (commands : List CGPathElement)
    (tramp : σ → CGPathElement → Except ε σ) (s : σ) : Except ε σ :=
  match commands with
  | [] => .ok s
  | e :: rest =>
    match tramp s e with
    | .ok s2 => CGPathApplyStream rest tramp s2
    | .error err => .error err

/-- Modelled from the spec: the foreign apply entry point. It is a pure
read: it walks the command stream of the object behind the pointer (once
per command, in order) and mutates neither the object nor any other foreign
state. A dangling pointer has no defined stream; it is modelled as the
empty one, a case excluded whenever a live handle is used. -/
def CGPathApply {σ ε : Type} (w : World) (p : Nat)
    (tramp : σ → CGPathElement → Except ε σ) (s : σ) : Except ε σ × World :=
  (CGPathApplyStream
    (match heapGet w p with
     | some o => o.commands
     | none => []) tramp s, w)

/-- `do_apply` from the source: the trampoline. It reinterprets the context
pointer as the closure and invokes the closure directly on the element —
with no catch of an unwinding closure. -/
def do_apply {σ ε : Type} (closure : σ → CGPathElement → Except ε σ) :
    σ → CGPathElement → Except ε σ :=
  fun s e => closure s e

/-- `CGPath::apply` from the source: pass the closure as the context value
and the trampoline `do_apply` to the foreign apply entry point. -/
def CGPath.apply {σ ε : Type} (w : World) (self : CGPath)
    (closure : σ → CGPathElement → Except ε σ) (s : σ) :
    Except ε σ × World :=
  CGPathApply w self.ptr (do_apply closure) s

/-- The sequence of elements the closure is invoked on during one apply
call, observed by a recording closure that never panics. -/
def applyTrace (w : World) (p : CGPath) : List CGPathElement :=
  match (CGPath.apply (ε := Empty) w p
      (fun acc e => Except.ok (acc ++ [e])) []).1 with
  | .ok l => l
  | .error err => err.elim

/- Concrete inputs used by the closed evidence theorems below. -/

def rect0 : CGRect := ⟨⟨0, 0⟩, ⟨2, 3⟩⟩

def t0 : CGAffineTransform := ⟨1, 0, 0, 1, 5, 6⟩

def w0 : World := ⟨[], 0, 7⟩

def elemClose : CGPathElement := ⟨.CloseSubpath, some []⟩

def elemMove : CGPathElement := ⟨.MoveToPoint, some [⟨0, 0⟩]⟩

/-- A closure that panics on every invocation. -/
def panicClosure : Unit → CGPathElement → Except String Unit :=
  fun _ _ => .error "closure panicked"

/-- A closure that counts its invocations and panics on the first one,
carrying the count in the unwind. -/
def countingPanicClosure : Nat → CGPathElement → Except Nat Nat :=
  fun n _ => .error (n + 1)

/-- A two-command path object behind pointer 0. -/
def objC3 : PathObject := ⟨rect0, none, [elemClose, elemClose], 1⟩

def wC3 : World := ⟨[(0, objC3)], 1, 7⟩

/-- A two-command path object behind pointer 5. -/
def objC5 : PathObject := ⟨rect0, none, [elemMove, elemClose], 2⟩

def wC5 : World := ⟨[(5, objC5)], 6, 7⟩

/- Theorems. -/

theorem cloneN_eq (n : Nat) : cloneN n = n + 1 := by
  induction n with
  | zero => rfl
  | succ n ih => simp [cloneN, cloneHandle, CFRetain, ih]

theorem runDrops_spec {α : Type} (l : List α) (c f : Nat)
    (hlen : l.length ≤ c) (hpos : 0 < c) :
    runDrops c f l = some (c - l.length, f + if l.length = c then 1 else 0) := by
  induction l generalizing c f with
  | nil =>
    simp [runDrops]
    omega
  | cons x rest ih =>
    obtain ⟨m, rfl⟩ : ∃ m, c = m + 1 := ⟨c - 1, by omega⟩
    simp only [runDrops, dropHandle, CFRelease]
    by_cases hm : m = 0
    · subst hm
      have : rest = [] := by
        cases rest with
        | nil => rfl
        | cons y t => simp at hlen
      subst this
      simp [runDrops]
    · have h1 : rest.length ≤ m := by simp at hlen; omega
      have h2 : 0 < m := by omega
      rw [show (m == 0) = false by simp [hm]]
      rw [if_neg (by simp), Nat.add_zero]
      rw [ih m f h1 h2]
      have hlc : (x :: rest).length = rest.length + 1 := rfl
      rw [hlc]
      have h3 : m - rest.length = m + 1 - (rest.length + 1) := by omega
      rw [h3]
      by_cases hrm : rest.length = m
      · rw [if_pos hrm, if_pos (by omega)]
      · rw [if_neg hrm, if_neg (by omega)]

theorem lookup_none_of_keys_lt (l : List (Nat × PathObject)) (n : Nat)
    (h : ∀ q ∈ l, q.1 < n) : l.lookup n = none := by
  induction l with
  | nil => rfl
  | cons kv rest ih =>
    have hk : kv.1 < n := h kv (by simp)
    have hne : (n == kv.1) = false := by
      simp
      omega
    obtain ⟨k, v⟩ := kv
    simp only [List.lookup, hne]
    exact ih (fun q hq => h q (by simp [hq]))

theorem applyStream_pure {σ ε : Type} (cmds : List CGPathElement)
    (f : σ → CGPathElement → σ) (s : σ) :
    CGPathApplyStream cmds (fun a e => (Except.ok (f a e) : Except ε σ)) s
      = Except.ok (cmds.foldl f s) := by
  induction cmds generalizing s with
  | nil => rfl
  | cons e rest ih => simp [CGPathApplyStream, ih, List.foldl]

theorem foldl_snoc (l acc : List CGPathElement) :
    l.foldl (fun a e => a ++ [e]) acc = acc ++ l := by
  induction l generalizing acc with
  | nil => simp
  | cons e rest ih => simp [List.foldl, ih]

/-- C1: for every command element whose point buffer is readable to the
fixed capacity of 3 the foreign contract provides, the slice returned by
`points` has length exactly the count mandated by the tag — 0 for Close,
1 for Move, 1 for Line, 2 for QuadCurve, 3 for Curve — never more, never
fewer. -/
theorem points_len_matches_tag (e : CGPathElement) (buf : List CGPoint)
    (hptr : e.points_ptr = some buf) (hcap : 3 ≤ buf.length) :
    (∃ ps, e.points = some ps ∧ ps.length = e.element_type.pointCount)
    ∧ CGPathElementType.pointCount .CloseSubpath = 0
    ∧ CGPathElementType.pointCount .MoveToPoint = 1
    ∧ CGPathElementType.pointCount .AddLineToPoint = 1
    ∧ CGPathElementType.pointCount .AddQuadCurveToPoint = 2
    ∧ CGPathElementType.pointCount .AddCurveToPoint = 3 := by
  refine ⟨?_, rfl, rfl, rfl, rfl, rfl⟩
  obtain ⟨tag, ptr⟩ := e
  have hp : ptr = some buf := hptr
  subst hp
  cases tag
  case CloseSubpath => exact ⟨[], rfl, rfl⟩
  all_goals
    simp only [CGPathElement.points, slice_from_raw_parts,
      CGPathElementType.pointCount]
  all_goals rw [if_pos (by omega)]
  all_goals exact ⟨_, rfl, by simp [List.length_take]; omega⟩

theorem points_len_matches_tag_witness :
    ((⟨.AddCurveToPoint, some [⟨0, 0⟩, ⟨1, 0⟩, ⟨1, 1⟩]⟩ :
        CGPathElement).points_ptr = some [⟨0, 0⟩, ⟨1, 0⟩, ⟨1, 1⟩]
      ∧ 3 ≤ ([⟨0, 0⟩, ⟨1, 0⟩, ⟨1, 1⟩] : List CGPoint).length)
    ∧ ((∃ ps, (⟨.AddCurveToPoint, some [⟨0, 0⟩, ⟨1, 0⟩, ⟨1, 1⟩]⟩ :
          CGPathElement).points = some ps
        ∧ ps.length =
          (⟨.AddCurveToPoint, some [⟨0, 0⟩, ⟨1, 0⟩, ⟨1, 1⟩]⟩ :
            CGPathElement).element_type.pointCount)
      ∧ CGPathElementType.pointCount .CloseSubpath = 0
      ∧ CGPathElementType.pointCount .MoveToPoint = 1
      ∧ CGPathElementType.pointCount .AddLineToPoint = 1
      ∧ CGPathElementType.pointCount .AddQuadCurveToPoint = 2
      ∧ CGPathElementType.pointCount .AddCurveToPoint = 3) :=
  ⟨⟨rfl, by decide⟩,
    points_len_matches_tag ⟨.AddCurveToPoint, some [⟨0, 0⟩, ⟨1, 0⟩, ⟨1, 1⟩]⟩
      [⟨0, 0⟩, ⟨1, 0⟩, ⟨1, 1⟩] rfl (by decide)⟩

/-- C9: for every CloseSubpath element, `points` returns the empty slice
without reading the point pointer: the result is `some []` even when the
pointer is null or dangling (`points_ptr = none`), the case in which any
dereference would have produced an undefined (`none`) result. -/
theorem close_subpath_points_no_deref :
    ∀ ptr : Option (List CGPoint),
      (CGPathElement.mk .CloseSubpath ptr).points = some [] := by
  intro ptr
  rfl

/-- C10: the command-tag enumeration is closed with exactly the five listed
variants, whose i32 discriminants are MoveToPoint = 0, AddLineToPoint = 1,
AddQuadCurveToPoint = 2, AddCurveToPoint = 3, CloseSubpath = 4; every value
of the type is one of the five and has its discriminant in {0,1,2,3,4}. -/
theorem element_type_closed :
    (CGPathElementType.tagValue .MoveToPoint = 0
      ∧ CGPathElementType.tagValue .AddLineToPoint = 1
      ∧ CGPathElementType.tagValue .AddQuadCurveToPoint = 2
      ∧ CGPathElementType.tagValue .AddCurveToPoint = 3
      ∧ CGPathElementType.tagValue .CloseSubpath = 4)
    ∧ (∀ t : CGPathElementType,
        t = .MoveToPoint ∨ t = .AddLineToPoint ∨ t = .AddQuadCurveToPoint
          ∨ t = .AddCurveToPoint ∨ t = .CloseSubpath)
    ∧ (∀ t : CGPathElementType,
        t.tagValue = 0 ∨ t.tagValue = 1 ∨ t.tagValue = 2 ∨ t.tagValue = 3
          ∨ t.tagValue = 4)
    ∧ Function.Injective CGPathElementType.tagValue := by
  refine ⟨⟨rfl, rfl, rfl, rfl, rfl⟩, ?_, ?_, ?_⟩
  · intro t; cases t <;> simp
  · intro t; cases t <;> simp [CGPathElementType.tagValue]
  · intro t u h; cases t <;> cases u <;>
      simp_all [CGPathElementType.tagValue]

/-- C2: starting from the creation reference (count 1 from the allocator),
after `N` clones (each one foreign retain) the count is `N + 1`; dropping
all `N + 1` handles in any order — any permutation of the handle set —
performs exactly `N + 1` releases against the `N + 1` retain/creation
references, frees the object exactly once, with no free occurring before
the last drop (every strict prefix of the drop order has freed 0 times),
and the outcome is the same for every drop order. -/
theorem refcount_balanced (N : Nat) (order : List (Fin (N + 1)))
    (hperm : order.Perm (List.finRange (N + 1))) :
    cloneN N = N + 1
    ∧ order.length = N + 1
    ∧ runDrops (cloneN N) 0 order = some (0, 1)
    ∧ (∀ j, j < N + 1 →
        runDrops (cloneN N) 0 (order.take j) = some (N + 1 - j, 0)) := by
  have hlen : order.length = N + 1 := by
    simpa using hperm.length_eq
  refine ⟨cloneN_eq N, hlen, ?_, ?_⟩
  · rw [cloneN_eq]
    rw [runDrops_spec order (N + 1) 0 (by omega) (by omega)]
    simp [hlen]
  · intro j hj
    rw [cloneN_eq]
    have htake : (order.take j).length = j := by
      rw [List.length_take]
      omega
    rw [runDrops_spec (order.take j) (N + 1) 0 (by omega) (by omega)]
    rw [htake]
    simp
    omega

theorem refcount_balanced_witness :
    ([(1 : Fin 2), 0].Perm (List.finRange 2))
    ∧ (cloneN 1 = 2
      ∧ ([(1 : Fin 2), 0] : List (Fin 2)).length = 2
      ∧ runDrops (cloneN 1) 0 [(1 : Fin 2), 0] = some (0, 1)
      ∧ (∀ j, j < 2 →
          runDrops (cloneN 1) 0 (([(1 : Fin 2), 0]).take j)
            = some (2 - j, 0))) :=
  ⟨by decide, refcount_balanced 1 [1, 0] (by decide)⟩

/-- C3 evidence (the code contradicts the claim): the trampoline `do_apply`
invokes the closure with no catch, so a panic inside the closure surfaces
as the trampoline's own result — it is returned to the foreign caller,
i.e. the unwind crosses the foreign call boundary instead of being captured
at the trampoline; consequently apply on a two-command path aborts the
enumeration after the first invocation (the carried count is 1) rather
than deferring the failure until after the foreign call completed. -/
theorem apply_panic_crosses_boundary :
    do_apply panicClosure () elemClose = Except.error "closure panicked"
    ∧ (CGPath.apply wC3 ⟨0⟩ panicClosure ()).1
        = Except.error "closure panicked"
    ∧ (CGPath.apply wC3 ⟨0⟩ countingPanicClosure 0).1 = Except.error 1
    ∧ objC3.commands.length = 2 :=
  ⟨rfl, rfl, rfl, rfl⟩

/-- C5: for every world and handle whose object is live, apply invokes the
closure exactly once per command of the object's stream, in stream order:
the recorded invocation trace equals the command stream, every
non-panicking closure is folded over exactly that stream, and a path with
zero commands yields zero invocations with apply returning the initial
state. -/
theorem apply_once_per_command (w : World) (p : CGPath) (obj : PathObject)
    (hobj : heapGet w p.ptr = some obj) :
    applyTrace w p = obj.commands
    ∧ (∀ (σ ε : Type) (f : σ → CGPathElement → σ) (s : σ),
        (CGPath.apply w p (fun a e => (Except.ok (f a e) : Except ε σ)) s).1
          = Except.ok (obj.commands.foldl f s))
    ∧ (obj.commands = [] → applyTrace w p = []) := by
  have htrace : applyTrace w p = obj.commands := by
    unfold applyTrace CGPath.apply CGPathApply do_apply
    rw [hobj]
    rw [show (fun (acc : List CGPathElement) (e : CGPathElement) =>
          (Except.ok (acc ++ [e]) : Except Empty (List CGPathElement)))
        = (fun acc e => (Except.ok ((fun a e => a ++ [e]) acc e) :
            Except Empty (List CGPathElement))) from rfl]
    rw [applyStream_pure]
    simp [foldl_snoc]
  refine ⟨htrace, ?_, fun h => by rw [htrace, h]⟩
  intro σ ε f s
  unfold CGPath.apply CGPathApply do_apply
  rw [hobj]
  exact applyStream_pure obj.commands f s

theorem apply_once_per_command_witness :
    (heapGet wC5 (CGPath.mk 5).ptr = some objC5)
    ∧ (applyTrace wC5 ⟨5⟩ = objC5.commands
      ∧ (∀ (σ ε : Type) (f : σ → CGPathElement → σ) (s : σ),
          (CGPath.apply wC5 ⟨5⟩
            (fun a e => (Except.ok (f a e) : Except ε σ)) s).1
            = Except.ok (objC5.commands.foldl f s))
      ∧ (objC5.commands = [] → applyTrace wC5 ⟨5⟩ = [])) :=
  ⟨rfl, apply_once_per_command wC5 ⟨5⟩ objC5 rfl⟩

/-- C6: construct-from-rectangle delegates to the foreign allocator with a
null transform pointer exactly when no transform is supplied and the
supplied transform otherwise; it always succeeds (the function is total,
with no error path) and the returned handle points at a fresh object — not
present in the old heap — whose reference count is exactly 1. -/
theorem from_rect_ok (w : World) (rect : CGRect)
    (tOpt : Option CGAffineTransform)
    (hfresh : ∀ q ∈ w.heap, q.1 < w.nextPtr) :
    heapGet (CGPath.from_rect w rect tOpt).2 (CGPath.from_rect w rect tOpt).1.ptr
      = some { rect := rect, transform := tOpt,
               commands := rectStream rect, refcount := 1 }
    ∧ heapGet w (CGPath.from_rect w rect tOpt).1.ptr = none
    ∧ ((heapGet (CGPath.from_rect w rect tOpt).2
          (CGPath.from_rect w rect tOpt).1.ptr).map PathObject.transform
        = some none ↔ tOpt = none) := by
  have harg : (CGPath.from_rect w rect tOpt)
      = (CGPath.from_ptr w.nextPtr,
          (CGPathCreateWithRect w rect tOpt).2) := by
    cases tOpt <;> rfl
  rw [harg]
  have hhead : heapGet (CGPathCreateWithRect w rect tOpt).2
      (CGPath.from_ptr w.nextPtr).ptr
      = some { rect := rect, transform := tOpt,
               commands := rectStream rect, refcount := 1 } := by
    simp [heapGet, CGPathCreateWithRect, CGPath.from_ptr, List.lookup]
  refine ⟨hhead, ?_, ?_⟩
  · exact lookup_none_of_keys_lt w.heap w.nextPtr hfresh
  · rw [hhead]
    cases tOpt <;> simp

theorem from_rect_ok_witness :
    (∀ q ∈ w0.heap, q.1 < w0.nextPtr)
    ∧ (heapGet (CGPath.from_rect w0 rect0 (some t0)).2
        (CGPath.from_rect w0 rect0 (some t0)).1.ptr
        = some { rect := rect0, transform := some t0,
                 commands := rectStream rect0, refcount := 1 }
      ∧ heapGet w0 (CGPath.from_rect w0 rect0 (some t0)).1.ptr = none
      ∧ ((heapGet (CGPath.from_rect w0 rect0 (some t0)).2
            (CGPath.from_rect w0 rect0 (some t0)).1.ptr).map
              PathObject.transform
          = some none ↔ (some t0 : Option CGAffineTransform) = none)) :=
  ⟨by simp [w0], from_rect_ok w0 rect0 (some t0) (by simp [w0])⟩

/-- C7: apply is a pure read: it returns the world unchanged, a second
apply on the resulting world with the same closure and start state yields
the same result, and the observed command trace after an apply equals the
trace before it. -/
theorem apply_pure_read {σ ε : Type} (w : World) (p : CGPath)
    (closure : σ → CGPathElement → Except ε σ) (s : σ) :
    (CGPath.apply w p closure s).2 = w
    ∧ (CGPath.apply (CGPath.apply w p closure s).2 p closure s).1
        = (CGPath.apply w p closure s).1
    ∧ applyTrace (CGPath.apply w p closure s).2 p = applyTrace w p :=
  ⟨rfl, rfl, rfl⟩

/-- C8: the type-identity query is deterministic within a process: two
successive calls return the same identifier, and the query mutates
nothing. -/
theorem type_id_deterministic (w : World) :
    (CGPath.type_id w).1 = (CGPath.type_id (CGPath.type_id w).2).1
    ∧ (CGPath.type_id w).2 = w :=
  ⟨rfl, rfl⟩

end CoreGraphics
